import Mathlib

/-!
Verification of the request-orchestration pipeline of the myAI3 chat server
(`src/app/api/chat/route.ts`, first `POST` handler, lines 1-191).

The development shallowly embeds the two request paths of the handler:

* the image path (multipart upload, OCR extraction, safety classification,
  JSON recovery, response body construction), and
* the text path (latest-user-message moderation gate, short-circuit stream,
  tool-augmented generation configuration).

External services (the inference service, the moderation service, the image
rotation utility) are modelled as explicit oracle inputs; the embedding
records which external calls the handler issues so that "stage X is never
invoked" claims are statable.

The JavaScript runtime pieces the handler leans on are embedded as well:
`JSON.parse` (ECMA JSON grammar, numbers as exact decimal values — the
idealization of IEEE doubles by exact decimals is noted on `Json.num`),
`JSON.stringify(v, null, 2)`, string `trim`, and the `||` operator on
optional strings.
-/

namespace Spec2Proof

/-- JSON values as handled by the runtime parser and serializer.
A number is modelled as the exact decimal `m * 10 ^ e`; this idealizes
JavaScript's binary floating point by exact decimal arithmetic (the two
agree on every value appearing in this development). -/
inductive Json where
  | null : Json
  | bool : Bool → Json
  | num : Int → Int → Json
  | str : String → Json
  | arr : List Json → Json
  | obj : List (String × Json) → Json

/-- Whitespace accepted by the JSON grammar (space, tab, line feed, carriage
return). -/
def isJsonWs (c : Char) : Bool :=
  c = ' ' || c = '\t' || c = '\n' || c = '\r'

/-- Drop leading JSON whitespace. -/
def skipWs (cs : List Char) : List Char := cs.dropWhile isJsonWs

/-- Numeric value of a decimal digit (code point minus 48). -/
def digitVal (c : Char) : Nat := c.toNat - 48

/-- Split off the longest prefix of decimal digits. -/
def takeDigits (cs : List Char) : List Char × List Char :=
  (cs.takeWhile Char.isDigit, cs.dropWhile Char.isDigit)

/-- Value of a digit string. -/
def digitsToNat (ds : List Char) : Nat :=
  ds.foldl (fun a d => 10 * a + digitVal d) 0

/-- Hexadecimal digit value, if any (by code-point ranges: digits, then
lowercase, then uppercase letters). -/
def hexVal (c : Char) : Option Nat :=
  let n := c.toNat
  if 48 ≤ n && n ≤ 57 then some (n - 48)
  else if 97 ≤ n && n ≤ 102 then some (n - 87)
  else if 65 ≤ n && n ≤ 70 then some (n - 55)
  else none

/-- Four hexadecimal digits, as used by a \u escape. -/
def parseHex4 : List Char → Option (Nat × List Char)
  | a :: b :: c :: d :: rest =>
    match hexVal a, hexVal b, hexVal c, hexVal d with
    | some x, some y, some z, some w => some (((x * 16 + y) * 16 + z) * 16 + w, rest)
    | _, _, _, _ => none
  | _ => none

/-- Body of a JSON string literal after the opening quote: decoded
characters plus the remainder after the closing quote.  Escapes follow the
JSON grammar; an unescaped control character is a parse error.  The fuel is
at least the input length, so it never runs out before the input does. -/
def parseStrChars : Nat → List Char → Option (List Char × List Char)
  | 0, _ => none
  | _, [] => none
  | fuel + 1, c :: rest =>
    if c = '"' then some ([], rest)
    else if c = '\\' then
      match rest with
      | [] => none
      | e :: rest2 =>
        let dec : Option (Char × List Char) :=
          if e = '"' then some ('"', rest2)
          else if e = '\\' then some ('\\', rest2)
          else if e = '/' then some ('/', rest2)
          else if e = 'b' then some ('\x08', rest2)
          else if e = 'f' then some ('\x0c', rest2)
          else if e = 'n' then some ('\n', rest2)
          else if e = 'r' then some ('\r', rest2)
          else if e = 't' then some ('\t', rest2)
          else if e = 'u' then
            match parseHex4 rest2 with
            | some (n, rest3) => some (Char.ofNat n, rest3)
            | none => none
          else none
        match dec with
        | some (ch, rest3) =>
          match parseStrChars fuel rest3 with
          | some (chs, r) => some (ch :: chs, r)
          | none => none
        | none => none
    else if c.toNat < 0x20 then none
    else
      match parseStrChars fuel rest with
      | some (chs, r) => some (c :: chs, r)
      | none => none

/-- Strip trailing zeros of a decimal mantissa while the exponent is
negative, so that parsed numbers print in the canonical JavaScript form.
The fuel (first argument) is the mantissa itself at the call site, which
exceeds the number of trailing zeros, so it never runs out. -/
def stripZeros : Nat → Nat → Int → Nat × Int
  | 0, n, e => (n, e)
  | fuel + 1, n, e =>
    if 0 < n ∧ n % 10 = 0 ∧ e < 0 then stripZeros fuel (n / 10) (e + 1)
    else (n, e)

/-- Normal form of a parsed decimal `m * 10 ^ e`. -/
def normNum (m e : Int) : Int × Int :=
  if m = 0 then (0, 0)
  else
    let p := stripZeros m.natAbs m.natAbs e
    (if m < 0 then -(p.1 : Int) else (p.1 : Int), p.2)

/-- Parse the JSON number grammar at the head of the input: optional minus,
integer part without leading zeros, optional fraction, optional exponent.
Returns mantissa, decimal exponent, and the remainder. -/
def parseNumber (cs : List Char) : Option (Int × Int × List Char) :=
  let signed : Bool × List Char :=
    match cs with
    | '-' :: tl => (true, tl)
    | other => (false, other)
  let neg := signed.1
  let intPart : Option (List Char × List Char) :=
    match signed.2 with
    | '0' :: tl => some (['0'], tl)
    | c :: _ => if c.isDigit then some (takeDigits signed.2) else none
    | [] => none
  match intPart with
  | none => none
  | some (ids, cs2) =>
    let fracPart : Option (List Char × List Char) :=
      match cs2 with
      | '.' :: rest =>
        let p := takeDigits rest
        if p.1.isEmpty then none else some p
      | _ => some ([], cs2)
    match fracPart with
    | none => none
    | some (fds, cs3) =>
      let expPart : Option (Int × List Char) :=
        match cs3 with
        | e :: rest =>
          if e = 'e' || e = 'E' then
            let se : Int × List Char :=
              match rest with
              | '+' :: r => (1, r)
              | '-' :: r => (-1, r)
              | _ => (1, rest)
            let p := takeDigits se.2
            if p.1.isEmpty then none else some (se.1 * (digitsToNat p.1 : Int), p.2)
          else some (0, cs3)
        | [] => some (0, cs3)
      match expPart with
      | none => none
      | some (ex, cs4) =>
        let mAbs : Nat := digitsToNat (ids ++ fds)
        let m : Int := if neg then -(mAbs : Int) else (mAbs : Int)
        let n := normNum m (ex - (fds.length : Int))
        some (n.1, n.2, cs4)

/-- Value of a field in an object, by key. -/
def lookupField (k : String) : List (String × Json) → Option Json
  | [] => none
  | (k', v) :: rest => if k' = k then some v else lookupField k rest

/-- Remove a key from an object. -/
def removeField (k : String) : List (String × Json) → List (String × Json)
  | [] => []
  | (k', v) :: rest =>
    if k' = k then removeField k rest else (k', v) :: removeField k rest

/-- Combine a parsed member with the members parsed after it, with the
JavaScript duplicate-key rule: the first occurrence fixes the position, the
last occurrence fixes the value. -/
def objPrepend (k : String) (v : Json) (flds : List (String × Json)) :
    List (String × Json) :=
  match lookupField k flds with
  | some v' => (k, v') :: removeField k flds
  | none => (k, v) :: flds

mutual

/-- Parse one JSON value (leading whitespace allowed); returns the value and
the remainder of the input.  The fuel argument only bounds recursion depth;
the initial fuel chosen by `jsonParse` is large enough that it never runs
out before the input does. -/
def parseVal : Nat → List Char → Option (Json × List Char)
  | 0, _ => none
  | fuel + 1, cs =>
    match skipWs cs with
    | 'n' :: 'u' :: 'l' :: 'l' :: rest => some (.null, rest)
    | 't' :: 'r' :: 'u' :: 'e' :: rest => some (.bool true, rest)
    | 'f' :: 'a' :: 'l' :: 's' :: 'e' :: rest => some (.bool false, rest)
    | '"' :: rest =>
      match parseStrChars (rest.length + 1) rest with
      | some (chs, r) => some (.str (String.mk chs), r)
      | none => none
    | '[' :: rest =>
      match skipWs rest with
      | ']' :: r2 => some (.arr [], r2)
      | _ =>
        match parseElems fuel rest with
        | some (xs, r2) => some (.arr xs, r2)
        | none => none
    | '\x7b' :: rest =>
      match skipWs rest with
      | '\x7d' :: r2 => some (.obj [], r2)
      | _ =>
        match parseFields fuel (skipWs rest) with
        | some (fs, r2) => some (.obj fs, r2)
        | none => none
    | other =>
      match parseNumber other with
      | some (m, e, r) => some (.num m e, r)
      | none => none

/-- Parse the elements of a non-empty array, up to and including the closing
bracket. -/
def parseElems : Nat → List Char → Option (List Json × List Char)
  | 0, _ => none
  | fuel + 1, cs =>
    match parseVal fuel cs with
    | none => none
    | some (v, r) =>
      match skipWs r with
      | ',' :: r2 =>
        match parseElems fuel r2 with
        | some (xs, r3) => some (v :: xs, r3)
        | none => none
      | ']' :: r2 => some ([v], r2)
      | _ => none

/-- Parse the members of a non-empty object (positioned at the first key's
opening quote), up to and including the closing brace. -/
def parseFields : Nat → List Char → Option (List (String × Json) × List Char)
  | 0, _ => none
  | fuel + 1, cs =>
    match cs with
    | '"' :: rest =>
      match parseStrChars (rest.length + 1) rest with
      | none => none
      | some (kchs, r2) =>
        match skipWs r2 with
        | ':' :: r3 =>
          match parseVal fuel r3 with
          | none => none
          | some (v, r4) =>
            match skipWs r4 with
            | ',' :: r5 =>
              match parseFields fuel (skipWs r5) with
              | some (fs, r6) => some (objPrepend (String.mk kchs) v fs, r6)
              | none => none
            | '\x7d' :: r5 => some ([(String.mk kchs, v)], r5)
            | _ => none
        | _ => none
    | _ => none

end

/-- The embedding of `JSON.parse`: parse one value, then require that only
whitespace remains. -/
def jsonParse (s : String) : Option Json :=
  match parseVal (2 * s.length + 8) s.data with
  | none => none
  | some (v, rest) => if (skipWs rest).isEmpty then some v else none

/-- A run of spaces. -/
def spaces (n : Nat) : String := String.mk (List.replicate n ' ')

/-- Lowercase hexadecimal digit. -/
def hexDigit (n : Nat) : Char :=
  if n < 10 then Char.ofNat ('0'.toNat + n) else Char.ofNat ('a'.toNat + n - 10)

/-- Serialization of one character inside a JSON string literal, as
`JSON.stringify` emits it: quote, backslash and control characters are
escaped, everything else is passed through. -/
def escapeChar (c : Char) : String :=
  if c = '"' then "\\\""
  else if c = '\\' then "\\\\"
  else if c = '\x08' then "\\b"
  else if c = '\x0c' then "\\f"
  else if c = '\n' then "\\n"
  else if c = '\r' then "\\r"
  else if c = '\t' then "\\t"
  else if c.toNat < 0x20 then
    "\\u00" ++ String.mk [hexDigit (c.toNat / 16), hexDigit (c.toNat % 16)]
  else String.singleton c

/-- Serialization of a JSON string literal. -/
def escapeString (s : String) : String :=
  "\"" ++ String.join (s.data.map escapeChar) ++ "\""

/-- Decimal rendering of `m * 10 ^ (-e)` for `e > 0` digits after the
point. -/
def decimalString (m : Int) (e : Nat) : String :=
  let sign := if m < 0 then "-" else ""
  let s := toString m.natAbs
  let s := if s.length ≤ e then spaces 0 ++ String.mk (List.replicate (e + 1 - s.length) '0') ++ s else s
  sign ++ s.take (s.length - e) ++ "." ++ s.drop (s.length - e)

/-- Rendering of a JSON number (canonical integer or plain decimal form,
matching JavaScript on the exact decimals this development manipulates). -/
def numToString (m e : Int) : String :=
  if 0 ≤ e then toString (m * (10 : Int) ^ e.toNat)
  else decimalString m (-e).toNat

mutual

/-- The embedding of `JSON.stringify(v, null, 2)` at a given current
indentation width. -/
def jsonIndent : Json → Nat → String
  | .null, _ => "null"
  | .bool b, _ => if b then "true" else "false"
  | .num m e, _ => numToString m e
  | .str s, _ => escapeString s
  | .arr [], _ => "[]"
  | .arr (x :: xs), ind =>
    "[\n" ++ String.intercalate ",\n" (arrLines (x :: xs) (ind + 2)) ++ "\n" ++
      spaces ind ++ "]"
  | .obj [], _ => "\x7b\x7d"
  | .obj (f :: fs), ind =>
    "\x7b\n" ++ String.intercalate ",\n" (objLines (f :: fs) (ind + 2)) ++ "\n" ++
      spaces ind ++ "\x7d"

/-- Serialized array elements, one line each. -/
def arrLines : List Json → Nat → List String
  | [], _ => []
  | x :: xs, ind => (spaces ind ++ jsonIndent x ind) :: arrLines xs ind

/-- Serialized object members, one line each. -/
def objLines : List (String × Json) → Nat → List String
  | [], _ => []
  | (k, v) :: fs, ind =>
    (spaces ind ++ escapeString k ++ ": " ++ jsonIndent v ind) :: objLines fs ind

end

/-- The embedding of `JSON.stringify(v, null, 2)`. -/
def jsonPretty (v : Json) : String := jsonIndent v 0

/-! ## JavaScript string helpers used by the handler -/

/-- Whitespace removed by JavaScript string `trim` (the characters relevant
to this development; wider Unicode space separators behave the same way). -/
def isJsWs (c : Char) : Bool :=
  c = ' ' || c = '\t' || c = '\n' || c = '\r' || c = '\x0b' || c = '\x0c' ||
    c.toNat = 0xa0 || c.toNat = 0xfeff || c.toNat = 0x2028 || c.toNat = 0x2029

/-- The embedding of JavaScript string `trim`. -/
def jsTrim (s : String) : String :=
  String.mk (((s.data.dropWhile isJsWs).reverse.dropWhile isJsWs).reverse)

/-- JavaScript `x || d` on an optional string: both an undefined and an
empty string are falsy, so either one selects the default. -/
def jsOr (x : Option String) (d : String) : String :=
  match x with
  | some t => if t = "" then d else t
  | none => d

/-! ## Image path of the handler (route.ts lines 36-142) -/

/-- An uploaded file as the handler consumes it: its MIME type and its byte
content in base64 form (the `File` → `Buffer` → base64 plumbing of lines
50-54 is abstracted to the base64 string the handler interpolates into the
data URL). -/
structure ImageFile where
  ftype : String
  b64 : String
deriving DecidableEq

/-- Oracle for the image path's external collaborators: the best-effort
`sharp(...).rotate()` result (`none` models the catch arm of lines 60-64,
after which the original bytes are used), and the `output_text` of the two
inference-service responses (`none` models an undefined `output_text`). -/
structure ImageEnv where
  sharpRotated : Option String
  ocrText : Option String
  analysisText : Option String
deriving DecidableEq

/-- External inference-service calls the image handler issues, with the
prompt each one carries. -/
inductive ExtCall where
  | ocr (prompt : String)
  | classify (prompt : String)
deriving DecidableEq

/-- A `Response.json({ response: ... }, { status: ... })` result: the HTTP
status and the `response` field of the JSON body. -/
structure JsonResponse where
  status : Nat
  response : String
deriving DecidableEq

/-- First form value with the given name, as `formData.get` returns it. -/
def lookupFile (k : String) : List (String × ImageFile) → Option ImageFile
  | [] => none
  | (k', f) :: rest => if k' = k then some f else lookupFile k rest

/-- The OCR prompt template of lines 71-81, with the data URL
interpolated. -/
def ocrPrompt (dataUrl : String) : String :=
  "\nExtract ONLY the cosmetic ingredient list from the image.\n\nRULES:\n- Only extract text after \"Ingredients:\" or similar.\n- Do NOT guess ingredients.\n- No extra words.\n- If unreadable, return \"UNREADABLE\".\n\n<image>" ++
    dataUrl ++ "</image>\n"

/-- The analysis prompt template of lines 94-118, with the extracted text
interpolated between the quotes. -/
def analysisPrompt (extracted : String) : String :=
  "\nYou are an Indian cosmetics ingredient safety evaluator.\n\nAnalyze the following ingredient list:\n\n\"" ++
    extracted ++
    "\"\n\nReturn STRICT JSON ONLY:\n\n\x7b\n  \"ingredients\": [\n    \x7b \"name\": \"\", \"classification\": \"\", \"reason\": \"\" \x7d\n  ],\n  \"score\": 0,\n  \"summary\": \"\"\n\x7d\n\nClassification rules:\n- SAFE\n- IRRITANT (fragrance, sulfates, essential oils)\n- RESTRICTED/BANNED (mercury, lead, hydroquinone OTC)\n- PREGNANCY_UNSAFE (retinoids, strong BHA/AHA)\n- KID_UNSAFE (MIT/CMIT, heavy fragrances)\n- COMEDOGENIC (coconut oil, cocoa butter, shea butter)\n"

/-- Line 89: `const extracted = ocrRes.output_text?.trim() || "UNREADABLE"`.
An undefined `output_text` and a whitespace-only one both yield the
sentinel. -/
def extractedText (ocrOut : Option String) : String :=
  jsOr (ocrOut.map jsTrim) "UNREADABLE"

/-- The fallback record built in the catch arm of lines 130-137.  Its `raw`
member is dropped when `output_text` is undefined, because `JSON.stringify`
drops object members whose value is undefined. -/
def fallbackJson (analysisOut : Option String) : Json :=
  .obj ([("ingredients", Json.arr []), ("score", Json.num 5 0),
      ("summary", Json.str "Could not parse output JSON.")] ++
    (match analysisOut with
     | some t => [("raw", Json.str t)]
     | none => []))

/-- Lines 127-137: `JSON.parse(analysisRes.output_text || "{}")` under
try/catch, the catch arm producing the fallback record. -/
def recoverAnalysis (analysisOut : Option String) : Json :=
  match jsonParse (jsOr analysisOut "\x7b\x7d") with
  | some v => v
  | none => fallbackJson analysisOut

/-- The image branch of `POST` (lines 36-142): form lookup, best-effort
rotation, data-URL construction, the OCR call, the analysis call, JSON
recovery, and the JSON response.  The second component records the
inference-service calls issued, in order. -/
def imageHandler (form : List (String × ImageFile)) (env : ImageEnv) :
    JsonResponse × List ExtCall :=
  match lookupFile "image" form with
  | none => ({ status := 400, response := "No image uploaded." }, [])
  | some f =>
    let enhanced :=
      match env.sharpRotated with
      | some b => b
      | none => f.b64
    let dataUrl := "data:" ++ f.ftype ++ ";base64," ++ enhanced
    let extracted := extractedText env.ocrText
    let parsed := recoverAnalysis env.analysisText
    ({ status := 200, response := jsonPretty parsed },
      [.ocr (ocrPrompt dataUrl), .classify (analysisPrompt extracted)])

/-! ## Text path of the handler (route.ts lines 148-191) -/

/-- Message roles of the conversation payload. -/
inductive Role where
  | user
  | assistant
  | system
deriving DecidableEq

/-- A message part; the handler only consumes the `text` case, every other
part kind is opaque to it. -/
inductive MsgPart where
  | text (t : String)
  | other (kind : String)
deriving DecidableEq

/-- A conversation message; `parts` is optional because the handler guards
it with `latest.parts?.`. -/
structure UIMessage where
  role : Role
  parts : Option (List MsgPart)
deriving DecidableEq

/-- The verdict returned by `isContentFlagged`. -/
structure ModerationVerdict where
  flagged : Bool
  denialMessage : Option String
deriving DecidableEq

/-- Events of the UI message stream protocol. -/
inductive StreamEvent where
  | start
  | textStart (id : String)
  | textDelta (id : String) (delta : String)
  | textEnd (id : String)
  | finish
deriving DecidableEq

/-- Outcome of the text branch: either the moderation short-circuit stream
written on lines 162-175, or handing the conversation to `streamText` with
the configured maximum number of rounds (`stopWhen: stepCountIs(10)`,
line 185). -/
inductive TextOutcome where
  | shortCircuit (events : List StreamEvent)
  | generate (maxRounds : Nat)
deriving DecidableEq

/-- Line 150: `messages.filter((m) => m.role === "user").pop()`. -/
def latestUser (messages : List UIMessage) : Option UIMessage :=
  (messages.filter (fun m => decide (m.role = Role.user))).getLast?

/-- Lines 153-157: concatenation of the `text` parts of a message, the
empty string when `parts` is undefined. -/
def userText (m : UIMessage) : String :=
  match m.parts with
  | none => ""
  | some ps =>
    String.join (ps.filterMap fun p =>
      match p with
      | .text t => some t
      | .other _ => none)

/-- The text branch of `POST` (lines 148-191).  The moderation service
(`isContentFlagged`, a library module outside `src/`) is passed as an
oracle.  The second component records the texts submitted to the moderation
service, in order. -/
def textHandler (messages : List UIMessage)
    (isContentFlagged : String → ModerationVerdict) :
    TextOutcome × List String :=
  match latestUser messages with
  | none => (.generate 10, [])
  | some latest =>
    let text := userText latest
    let moderation := isContentFlagged text
    if moderation.flagged then
      (.shortCircuit [.start, .textStart "blocked",
        .textDelta "blocked" (jsOr moderation.denialMessage "Message blocked."),
        .textEnd "blocked", .finish], [text])
    else (.generate 10, [text])

/-! ## The stream protocol invariant (spec sections 3, 4.3 and 8) -/

/-- The short-circuit stream the handler writes on lines 162-175, as a
function of the verdict's denial message. -/
def moderationEvents (dm : Option String) : List StreamEvent :=
  [.start, .textStart "blocked",
   .textDelta "blocked" (jsOr dm "Message blocked."),
   .textEnd "blocked", .finish]

/-- Element of an event list at an index. -/
def nth : List StreamEvent → Nat → Option StreamEvent
  | [], _ => none
  | e :: _, 0 => some e
  | _ :: rest, n + 1 => nth rest n

/-- Number of events satisfying a test. -/
def countEv (p : StreamEvent → Bool) : List StreamEvent → Nat
  | [] => 0
  | e :: rest => (if p e then 1 else 0) + countEv p rest

/-- Test for a `start` event. -/
def isStart : StreamEvent → Bool
  | .start => true
  | _ => false

/-- Test for a `finish` event. -/
def isFinish : StreamEvent → Bool
  | .finish => true
  | _ => false

/-- Test for a `text-end` event with the given identifier. -/
def isTextEndId (id : String) : StreamEvent → Bool
  | .textEnd i => i == id
  | _ => false

/-- Test for a `text-end` event with any identifier. -/
def isTextEndAny : StreamEvent → Bool
  | .textEnd _ => true
  | _ => false

/-- The protocol invariant on one turn's event sequence: it begins with the
unique `start`, ends with the unique `finish`, every `text-start` for an
identifier has exactly one later `text-end` for that identifier, no
`text-end` follows `finish`, and every `text-delta` for an identifier lies
between a `text-start` and a `text-end` for it. -/
def streamInvariant (evs : List StreamEvent) : Prop :=
  evs.head? = some .start ∧
  countEv isStart evs = 1 ∧
  evs.getLast? = some .finish ∧
  countEv isFinish evs = 1 ∧
  (∀ i id, nth evs i = some (.textStart id) →
    countEv (isTextEndId id) (evs.drop (i + 1)) = 1) ∧
  (∀ i, nth evs i = some .finish →
    countEv isTextEndAny (evs.drop (i + 1)) = 0) ∧
  (∀ i id d, nth evs i = some (.textDelta id d) →
    (∃ j, j < i ∧ nth evs j = some (.textStart id)) ∧
    (∃ k, i < k ∧ nth evs k = some (.textEnd id)))

/-- Concatenated delta text of a stream: what the client renders. -/
def visibleText (evs : List StreamEvent) : String :=
  String.join (evs.filterMap fun e =>
    match e with
    | .textDelta _ d => some d
    | _ => none)

/-! ## The completion loop (spec section 4.4)

The tool-augmented loop itself lives in the `ai` library, outside `src/`;
only its configuration (`stopWhen: stepCountIs(10)`, line 185) is
repository code.  The loop is therefore modelled from the spec. -/

/-- Modelled from the spec: the outcome of one round at the inference
service in the tool loop (section 4.4) — either a request to invoke a named
tool, or a final answer. -/
inductive ModelStep where
  | toolCall (tool : String)
  | final (text : String)

/-- The `stepCountIs(n)` stop condition the route passes to `streamText`:
stop once `n` steps have executed. -/
def stepCountIs (n : Nat) : Nat → Bool := fun steps => decide (n ≤ steps)

/-- Modelled from the spec: ToolAugmentedCompletionLoop (section 4.4),
which lives in the `ai` library.  Each round is one inference call; a tool
request continues the loop unless the stop condition fires on the new step
count.  Returns the number of inference calls made and the final text
(`none` when the bound cut the loop before a final answer). -/
def runLoop (model : Nat → ModelStep) (stop : Nat → Bool) :
    Nat → Nat → Nat × Option String
  | 0, steps => (steps, none)
  | fuel + 1, steps =>
    match model steps with
    | .final t => (steps + 1, some t)
    | .toolCall _ =>
      if stop (steps + 1) then (steps + 1, none)
      else runLoop model stop fuel (steps + 1)

/-- Modelled from the spec: the events the loop's emitter writes for one
turn — a single text segment carrying the final text, or an empty segment
when the bound was reached (graceful close, section 4.4). -/
def loopEvents (t : Option String) : List StreamEvent :=
  [.start, .textStart "answer"] ++
    (match t with
     | some s => [.textDelta "answer" s]
     | none => []) ++
    [.textEnd "answer", .finish]

/-- Result of a completion-loop run: inference calls made and the emitted
stream. -/
structure LoopResult where
  calls : Nat
  events : List StreamEvent

/-- Modelled from the spec: the loop as the route configures it, with
`stopWhen: stepCountIs(bound)` and fuel equal to the bound. -/
def completionLoop (model : Nat → ModelStep) (bound : Nat) : LoopResult :=
  let r := runLoop model (stepCountIs bound) bound 0
  { calls := r.1, events := loopEvents r.2 }

/-! ## StructuredOutputExtractor (spec section 4.6)

The handler under verification recovers the classifier's output with a bare
`JSON.parse` under try/catch.  The spec describes a richer recovery chain;
it is modelled here, from the spec's words, as a second definition so the
two can be compared. -/

/-- Split a character list at the first occurrence of a separator: the part
before it and the part after it. -/
def breakOn (sep : List Char) : List Char → Option (List Char × List Char)
  | [] => none
  | c :: rest =>
    if sep.isPrefixOf (c :: rest) then some ([], (c :: rest).drop sep.length)
    else
      match breakOn sep rest with
      | some (pre, post) => some (c :: pre, post)
      | none => none

/-- The backquote character. -/
def backquote : Char := Char.ofNat 0x60

/-- A fence marker: three backquotes. -/
def fence : List Char := [backquote, backquote, backquote]

/-- Modelled from the spec: helper for section 4.6 step 1 — drop the
language tag line of a fenced block when the fence line is a bare word. -/
def dropLangTag (s : String) : String :=
  match breakOn ['\n'] s.data with
  | none => s
  | some (first, rest) =>
    if first.all Char.isAlpha then String.mk rest else s

/-- Modelled from the spec: section 4.6 step 1 — when a fenced block is
present its contents (up to the closing fence, when one exists) are the
candidate, otherwise the whole text is. -/
def fencedCandidate (s : String) : String :=
  match breakOn fence s.data with
  | none => s
  | some (_, after) =>
    match breakOn fence after with
    | none => dropLangTag (String.mk after)
    | some (inner, _) => dropLangTag (String.mk inner)

/-- Modelled from the spec: section 4.6 step 2 — scan for the first
top-level brace-delimited span (depth counting; text before the first
opening brace is skipped). -/
def braceSpanAux : List Char → Nat → List Char → Option (List Char)
  | [], _, _ => none
  | c :: cs, depth, acc =>
    if c = '\x7b' then braceSpanAux cs (depth + 1) (c :: acc)
    else if c = '\x7d' then
      if depth = 0 then braceSpanAux cs 0 acc
      else if depth = 1 then some (c :: acc).reverse
      else braceSpanAux cs (depth - 1) (c :: acc)
    else if depth = 0 then braceSpanAux cs 0 acc
    else braceSpanAux cs depth (c :: acc)

/-- Modelled from the spec: the first top-level brace span of the
candidate. -/
def braceSpan (s : String) : Option String :=
  (braceSpanAux s.data 0 []).map String.mk

/-- Modelled from the spec: section 4.6 step 4 — a non-ASCII quotation mark
becomes its ASCII counterpart. -/
def asciiQuote (c : Char) : Char :=
  if c.toNat = 0x201c || c.toNat = 0x201d || c.toNat = 0x201e then '"'
  else if c.toNat = 0x2018 || c.toNat = 0x2019 then Char.ofNat 0x27
  else c

/-- Modelled from the spec: section 4.6 step 4 — drop a comma that is
followed, up to whitespace, by a closing brace or bracket.  The fuel
(first argument) is the input length at the call site; every recursive call
follows the consumption of at least one character, so it never runs
out. -/
def stripCommas : Nat → List Char → List Char
  | 0, cs => cs
  | _, [] => []
  | fuel + 1, c :: rest =>
    if c = ',' then
      let r2 := rest.dropWhile isJsWs
      if r2.head? = some '\x7d' || r2.head? = some ']' then stripCommas fuel r2
      else c :: stripCommas fuel rest
    else c :: stripCommas fuel rest

/-- Modelled from the spec: StructuredOutputExtractor (section 4.6), the
recovery chain the spec prescribes — fenced-block candidate, first
top-level brace span, direct parse, textual repairs then reparse, and an
explicit empty result when every attempt fails. -/
def specExtract (s : String) : Option Json :=
  match braceSpan (fencedCandidate s) with
  | none => none
  | some span =>
    match jsonParse span with
    | some v => some v
    | none =>
      let repaired := span.data.map asciiQuote
      jsonParse (String.mk (stripCommas repaired.length repaired))

/-! ## Rendering stage (spec section 4.5 step 4)

The spec's rendering stage (grouped-by-status report with fixed visual
markers) is absent from the handler under verification; it is modelled from
the spec so the claim about it can be compared with what the handler
returns.  The markers are the ones the repository's sibling route variants
use. -/

/-- An ingredient entry of the classifier's fixed schema. -/
structure IngredientRecord where
  name : String
  classification : String
  reason : String
deriving DecidableEq

/-- The classifier's fixed result schema. -/
structure AnalysisResult where
  ingredients : List IngredientRecord
  score : Int
  summary : String
deriving DecidableEq

/-- Modelled from the spec: the fixed visual marker for each status of the
closed enumeration. -/
def statusMarker : String → String
  | "SAFE" => "🟢"
  | "IRRITANT" => "🟡"
  | "RESTRICTED/BANNED" => "⛔"
  | "PREGNANCY_UNSAFE" => "🔴"
  | "KID_UNSAFE" => "👶"
  | "COMEDOGENIC" => "🟠"
  | _ => "❓"

/-- Modelled from the spec: the Rendering stage (section 4.5 step 4) — a
human-readable report grouped by status, each status mapped to its fixed
marker, followed by the score and the summary. -/
def specRender (r : AnalysisResult) : String :=
  let statuses := ["SAFE", "IRRITANT", "RESTRICTED/BANNED",
    "PREGNANCY_UNSAFE", "KID_UNSAFE", "COMEDOGENIC"]
  let group := fun (st : String) =>
    let items := r.ingredients.filter fun i => decide (i.classification = st)
    if items.isEmpty then ""
    else
      statusMarker st ++ " " ++ st ++ ":\n" ++
        String.join (items.map fun i => "- " ++ i.name ++ " (" ++ i.reason ++ ")\n")
  String.join (statuses.map group) ++
    "Score: " ++ toString r.score ++ "/10\n" ++ r.summary

/-! ## Helper lemmas -/

/-- A one-segment stream — `start`, `text-start`, an optional delta,
`text-end`, `finish`, all on one identifier — satisfies the protocol
invariant.  Both the moderation short-circuit stream and the loop emitter's
stream have this shape. -/
theorem streamInvariant_segment (id : String) (t : Option String) :
    streamInvariant ([.start, .textStart id] ++
      (match t with
       | some s => [.textDelta id s]
       | none => []) ++ [.textEnd id, .finish]) := by
  cases t with
  | none =>
    refine ⟨rfl, rfl, rfl, rfl, ?_, ?_, ?_⟩
    · intro i id2 h
      rcases i with _ | _ | _ | _ | i
      · simp [nth] at h
      · have e : id = id2 := by simpa [nth] using h
        subst e
        simp [countEv, isTextEndId]
      · simp [nth] at h
      · simp [nth] at h
      · simp [nth] at h
    · intro i h
      rcases i with _ | _ | _ | _ | i
      · simp [nth] at h
      · simp [nth] at h
      · simp [nth] at h
      · simp [countEv]
      · simp [nth] at h
    · intro i id2 d h
      rcases i with _ | _ | _ | _ | i <;> simp [nth] at h
  | some s =>
    refine ⟨rfl, rfl, rfl, rfl, ?_, ?_, ?_⟩
    · intro i id2 h
      rcases i with _ | _ | _ | _ | _ | i
      · simp [nth] at h
      · have e : id = id2 := by simpa [nth] using h
        subst e
        simp [countEv, isTextEndId]
      · simp [nth] at h
      · simp [nth] at h
      · simp [nth] at h
      · simp [nth] at h
    · intro i h
      rcases i with _ | _ | _ | _ | _ | i
      · simp [nth] at h
      · simp [nth] at h
      · simp [nth] at h
      · simp [nth] at h
      · simp [countEv]
      · simp [nth] at h
    · intro i id2 d h
      rcases i with _ | _ | _ | _ | _ | i
      · simp [nth] at h
      · simp [nth] at h
      · have e : id = id2 ∧ s = d := by simpa [nth] using h
        obtain ⟨e1, _⟩ := e
        subst e1
        exact ⟨⟨1, by omega, rfl⟩, ⟨3, by omega, rfl⟩⟩
      · simp [nth] at h
      · simp [nth] at h
      · simp [nth] at h

/-! ## Claims about the text path -/

/-- C4 (amended): when the latest user-authored message's text is flagged,
the handler never reaches `streamText` — it answers with the short-circuit
stream whose only visible text is the verdict's `denialMessage` when that
is present and non-empty, and the fixed default `"Message blocked."` when
the message is absent or empty (JavaScript `||` treats both as falsy). -/
theorem flagged_turn_short_circuits (messages : List UIMessage)
    (mod : String → ModerationVerdict) (m : UIMessage)
    (hm : latestUser messages = some m)
    (hf : (mod (userText m)).flagged = true) :
    textHandler messages mod =
      (.shortCircuit (moderationEvents (mod (userText m)).denialMessage),
        [userText m]) ∧
    visibleText (moderationEvents (mod (userText m)).denialMessage) =
      jsOr (mod (userText m)).denialMessage "Message blocked." ∧
    ∀ b, TextOutcome.shortCircuit
        (moderationEvents (mod (userText m)).denialMessage) ≠
      TextOutcome.generate b := by
  refine ⟨?_, rfl, fun _ h => nomatch h⟩
  unfold textHandler
  rw [hm]
  simp [hf, moderationEvents]

/-- Witness for `flagged_turn_short_circuits` at a concrete flagged
conversation. -/
theorem flagged_turn_short_circuits_witness :
    latestUser [⟨Role.user, some [MsgPart.text "hi"]⟩] =
      some ⟨Role.user, some [MsgPart.text "hi"]⟩ ∧
    ((fun _ => (⟨true, some "stop"⟩ : ModerationVerdict)) "hi").flagged = true ∧
    textHandler [⟨Role.user, some [MsgPart.text "hi"]⟩]
        (fun _ => (⟨true, some "stop"⟩ : ModerationVerdict)) =
      (.shortCircuit (moderationEvents (some "stop")), ["hi"]) :=
  ⟨rfl, rfl,
    (flagged_turn_short_circuits [⟨Role.user, some [MsgPart.text "hi"]⟩]
      (fun _ => ⟨true, some "stop"⟩) ⟨Role.user, some [MsgPart.text "hi"]⟩
      rfl rfl).1⟩

/-- C4 counterexample: a flagged verdict with a present-but-empty
`denialMessage` emits the fixed default text, not the (empty)
`denialMessage` — JavaScript `||` treats the empty string as absent. -/
theorem empty_denial_message_replaced_by_default :
    ((fun _ => (⟨true, some ""⟩ : ModerationVerdict)) "hi").denialMessage =
      some "" ∧
    textHandler [⟨Role.user, some [MsgPart.text "hi"]⟩]
        (fun _ => (⟨true, some ""⟩ : ModerationVerdict)) =
      (.shortCircuit (moderationEvents (some "")), ["hi"]) ∧
    visibleText (moderationEvents (some "")) = "Message blocked." ∧
    "Message blocked." ≠ "" :=
  ⟨rfl, rfl, rfl, by decide⟩

/-- C5: every stream the handler itself constructs — the moderation
short-circuit stream is the only one built in the repository's code —
satisfies the protocol invariant: unique leading `start`, unique trailing
`finish`, matched `text-start`/`text-end` per identifier, deltas inside
their segment. -/
theorem handler_streams_satisfy_invariant (messages : List UIMessage)
    (mod : String → ModerationVerdict) (evs : List StreamEvent)
    (h : (textHandler messages mod).1 = .shortCircuit evs) :
    streamInvariant evs := by
  unfold textHandler at h
  cases hl : latestUser messages with
  | none =>
    rw [hl] at h
    simp at h
  | some m =>
    rw [hl] at h
    by_cases hf : (mod (userText m)).flagged
    · simp only [hf, if_true] at h
      have he : evs =
          [.start, .textStart "blocked",
           .textDelta "blocked" (jsOr (mod (userText m)).denialMessage "Message blocked."),
           .textEnd "blocked", .finish] := by
        cases h
        rfl
      rw [he]
      exact streamInvariant_segment "blocked"
        (some (jsOr (mod (userText m)).denialMessage "Message blocked."))
    · simp [hf] at h

/-- Witness for `handler_streams_satisfy_invariant` at a concrete flagged
conversation. -/
theorem handler_streams_satisfy_invariant_witness :
    streamInvariant
      [.start, .textStart "blocked", .textDelta "blocked" "nope",
       .textEnd "blocked", .finish] :=
  handler_streams_satisfy_invariant [⟨Role.user, some [MsgPart.text "hi"]⟩]
    (fun _ => ⟨true, some "nope"⟩) _ rfl

/-- C8 (amended): moderation is skipped — and the request proceeds straight
to generation — only when no message in the conversation is user-authored.
Otherwise the most recent user-authored message, even when it is not the
conversation's latest message, has its text parts concatenated (the empty
string when it has none or `parts` is absent) and that text is submitted to
the moderation service; the verdict on it decides between generation and
the short-circuit. -/
theorem moderation_targets_last_user_message (messages : List UIMessage)
    (mod : String → ModerationVerdict) :
    (latestUser messages = none →
      textHandler messages mod = (.generate 10, [])) ∧
    (∀ m, latestUser messages = some m →
      (textHandler messages mod).2 = [userText m] ∧
      ((mod (userText m)).flagged = false →
        (textHandler messages mod).1 = .generate 10) ∧
      ((mod (userText m)).flagged = true →
        (textHandler messages mod).1 =
          .shortCircuit (moderationEvents (mod (userText m)).denialMessage))) := by
  constructor
  · intro hn
    unfold textHandler
    rw [hn]
  · intro m hm
    have h2 : (textHandler messages mod).2 = [userText m] := by
      unfold textHandler
      rw [hm]
      by_cases hf : (mod (userText m)).flagged <;> simp [hf]
    refine ⟨h2, ?_, ?_⟩
    · intro hf
      unfold textHandler
      rw [hm]
      simp [hf]
    · intro hf
      unfold textHandler
      rw [hm]
      simp [hf, moderationEvents]

/-- Witness for `moderation_targets_last_user_message`: both hypotheses are
discharged at concrete conversations — one with no user message, one whose
single user message has no text parts (so the gate is consulted with the
empty string). -/
theorem moderation_targets_last_user_message_witness :
    textHandler [] (fun _ => (⟨false, none⟩ : ModerationVerdict)) =
      (.generate 10, []) ∧
    (textHandler [⟨Role.user, some []⟩]
        (fun _ => (⟨false, none⟩ : ModerationVerdict))).2 = [""] :=
  ⟨(moderation_targets_last_user_message [] (fun _ => ⟨false, none⟩)).1 rfl,
    ((moderation_targets_last_user_message [⟨Role.user, some []⟩]
      (fun _ => ⟨false, none⟩)).2 ⟨Role.user, some []⟩ rfl).1⟩

/-- C8 counterexample: the conversation's latest message is
assistant-authored, yet the handler does not pass automatically — it
submits the earlier user message's text to the moderation service and its
verdict blocks the turn instead of proceeding to generation. -/
theorem stale_user_message_still_moderated :
    ([⟨Role.user, some [MsgPart.text "bad"]⟩,
      ⟨Role.assistant, some [MsgPart.text "ok"]⟩] :
        List UIMessage).getLast? =
      some ⟨Role.assistant, some [MsgPart.text "ok"]⟩ ∧
    (textHandler
        [⟨Role.user, some [MsgPart.text "bad"]⟩,
         ⟨Role.assistant, some [MsgPart.text "ok"]⟩]
        (fun t => if t = "bad" then ⟨true, some "nope"⟩ else ⟨false, none⟩)).2 =
      ["bad"] ∧
    (textHandler
        [⟨Role.user, some [MsgPart.text "bad"]⟩,
         ⟨Role.assistant, some [MsgPart.text "ok"]⟩]
        (fun t => if t = "bad" then ⟨true, some "nope"⟩ else ⟨false, none⟩)).1 =
      .shortCircuit (moderationEvents (some "nope")) ∧
    ∀ b, TextOutcome.shortCircuit (moderationEvents (some "nope")) ≠
      TextOutcome.generate b :=
  ⟨rfl, rfl, rfl, fun _ h => nomatch h⟩

/-- C6: the completion loop, as the route configures it (`stopWhen:
stepCountIs(10)`), makes at most 10 inference calls, its emitted stream
satisfies the protocol invariant (it closes cleanly even when the bound
fires), a service that requests a tool on every round is cut at exactly 10
calls, and the route hands generation exactly this bound. -/
theorem completion_loop_bounded (model : Nat → ModelStep) :
    (completionLoop model 10).calls ≤ 10 ∧
    streamInvariant (completionLoop model 10).events ∧
    (completionLoop (fun _ => ModelStep.toolCall "webSearch") 10).calls = 10 ∧
    (∀ mod, (textHandler [] mod).1 = TextOutcome.generate 10) := by
  have hle : ∀ (stop : Nat → Bool) (fuel steps : Nat),
      (runLoop model stop fuel steps).1 ≤ steps + fuel := by
    intro stop fuel
    induction fuel with
    | zero =>
      intro steps
      simp [runLoop]
    | succ n ih =>
      intro steps
      unfold runLoop
      cases model steps with
      | final t => simp
      | toolCall tool =>
        by_cases hs : stop (steps + 1)
        · simp [hs]
        · simp [hs]
          have := ih (steps + 1)
          omega
  refine ⟨?_, ?_, rfl, fun mod => rfl⟩
  · have := hle (stepCountIs 10) 10 0
    simpa [completionLoop] using this
  · exact streamInvariant_segment "answer"
      (runLoop model (stepCountIs 10) 10 0).2

/-! ## Claims about the image path -/

/-- C7: a multipart request without an `image` field is rejected
immediately: HTTP 400 with body `{ response: "No image uploaded." }`, and
no external call is issued. -/
theorem missing_image_rejected (form : List (String × ImageFile))
    (env : ImageEnv) (h : lookupFile "image" form = none) :
    imageHandler form env =
      ({ status := 400, response := "No image uploaded." }, []) := by
  unfold imageHandler
  rw [h]

/-- Witness for `missing_image_rejected` at the empty form. -/
theorem missing_image_rejected_witness :
    lookupFile "image" [] = none ∧
    imageHandler [] ⟨none, none, none⟩ =
      ({ status := 400, response := "No image uploaded." }, []) :=
  ⟨rfl, missing_image_rejected [] ⟨none, none, none⟩ rfl⟩

/-- C10: any syntactically valid JSON the classifier returns — `null`, a
bare number, an array, an object missing every schema field — is accepted
with no validation against the fixed schema or the closed status
enumeration: the handler answers 200 with the pretty-printed parsed value
as the `response` field. -/
theorem any_valid_json_accepted (form : List (String × ImageFile))
    (env : ImageEnv) (f : ImageFile) (s : String) (v : Json)
    (hf : lookupFile "image" form = some f)
    (hs : env.analysisText = some s)
    (hv : jsonParse s = some v) :
    (imageHandler form env).1 = { status := 200, response := jsonPretty v } := by
  have hrec : recoverAnalysis env.analysisText = v := by
    unfold recoverAnalysis
    rw [hs]
    by_cases h0 : s = ""
    · subst h0
      rw [show jsonParse "" = none from rfl] at hv
      simp at hv
    · have hj : jsOr (some s) "\x7b\x7d" = s := by
        simp [jsOr, h0]
      rw [hj, hv]
  unfold imageHandler
  rw [hf]
  simp [hrec]

/-- Witness for `any_valid_json_accepted`: the classifier answering the
bare literal `null` passes through and the response body is `null`. -/
theorem any_valid_json_accepted_witness :
    lookupFile "image" [("image", ⟨"image/png", "QUJD"⟩)] =
      some ⟨"image/png", "QUJD"⟩ ∧
    jsonParse "null" = some Json.null ∧
    (imageHandler [("image", ⟨"image/png", "QUJD"⟩)]
        ⟨none, some "ok", some "null"⟩).1 =
      { status := 200, response := "null" } :=
  ⟨rfl, rfl,
    any_valid_json_accepted [("image", ⟨"image/png", "QUJD"⟩)]
      ⟨none, some "ok", some "null"⟩ ⟨"image/png", "QUJD"⟩ "null" Json.null
      rfl rfl rfl⟩

/-- C3: structured-output recovery is total — a classifier output that
fails to parse (after the `||` defaulting of line 129) is absorbed into the
explicit degraded record (empty `ingredients`, score 5, fixed summary) and
the pipeline answers a normal 200 JSON response carrying it; no parse
exception reaches the caller. -/
theorem unparseable_output_degrades_gracefully
    (form : List (String × ImageFile)) (env : ImageEnv) (f : ImageFile)
    (hf : lookupFile "image" form = some f)
    (hp : jsonParse (jsOr env.analysisText "\x7b\x7d") = none) :
    recoverAnalysis env.analysisText = fallbackJson env.analysisText ∧
    (∃ flds, fallbackJson env.analysisText = Json.obj flds ∧
      lookupField "ingredients" flds = some (Json.arr []) ∧
      lookupField "summary" flds =
        some (Json.str "Could not parse output JSON.")) ∧
    (imageHandler form env).1 =
      { status := 200,
        response := jsonPretty (fallbackJson env.analysisText) } := by
  have hrec : recoverAnalysis env.analysisText = fallbackJson env.analysisText := by
    unfold recoverAnalysis
    rw [hp]
  refine ⟨hrec, ?_, ?_⟩
  · cases ha : env.analysisText with
    | none => exact ⟨_, rfl, rfl, rfl⟩
    | some t => exact ⟨_, rfl, rfl, rfl⟩
  · unfold imageHandler
    rw [hf]
    simp [hrec]

/-- Witness for `unparseable_output_degrades_gracefully` on the truncated
classifier output of the malformed-JSON scenario. -/
theorem unparseable_output_degrades_gracefully_witness :
    jsonParse (jsOr
      (some "Sure! Here you go: \x7b\"ingredients\":[...],\"score\":7,\"summary\":\"ok\"")
      "\x7b\x7d") = none ∧
    (imageHandler [("image", ⟨"image/png", "QUJD"⟩)]
        ⟨none, some "Aqua",
          some "Sure! Here you go: \x7b\"ingredients\":[...],\"score\":7,\"summary\":\"ok\""⟩).1 =
      { status := 200,
        response := jsonPretty (fallbackJson
          (some "Sure! Here you go: \x7b\"ingredients\":[...],\"score\":7,\"summary\":\"ok\"")) } :=
  ⟨rfl,
    (unparseable_output_degrades_gracefully [("image", ⟨"image/png", "QUJD"⟩)]
      ⟨none, some "Aqua",
        some "Sure! Here you go: \x7b\"ingredients\":[...],\"score\":7,\"summary\":\"ok\""⟩
      ⟨"image/png", "QUJD"⟩ rfl rfl).2.2⟩

/-- C2 (amended): the handler's structured-output extractor is a bare
`JSON.parse` of the raw output text — with `||` substituting a brace pair
for an absent or empty text — under a catch that returns the fixed fallback
record; there is no fenced-block step, no brace scan, and no repair
pass. -/
theorem extractor_is_bare_parse (s : Option String) :
    (∃ v, jsonParse (jsOr s "\x7b\x7d") = some v ∧ recoverAnalysis s = v) ∨
    (jsonParse (jsOr s "\x7b\x7d") = none ∧
      recoverAnalysis s = fallbackJson s) := by
  unfold recoverAnalysis
  cases h : jsonParse (jsOr s "\x7b\x7d") with
  | some v => exact .inl ⟨v, rfl, rfl⟩
  | none => exact .inr ⟨rfl, rfl⟩

/-- C2 counterexample: on a trailing-comma object the claimed recovery
chain succeeds after the repair pass, but the handler's extractor performs
no repair and falls back to the fixed degraded record instead of the
repaired parse. -/
theorem trailing_comma_not_repaired :
    specExtract "\x7b\"a\": 1,\x7d" = some (Json.obj [("a", Json.num 1 0)]) ∧
    recoverAnalysis (some "\x7b\"a\": 1,\x7d") =
      fallbackJson (some "\x7b\"a\": 1,\x7d") ∧
    recoverAnalysis (some "\x7b\"a\": 1,\x7d") ≠
      Json.obj [("a", Json.num 1 0)] :=
  ⟨rfl, rfl, ne_of_apply_ne jsonPretty (by decide)⟩

/-- C9 (amended): for every image request that reaches the pipeline, the
"rendering" of the classification stage is `JSON.stringify(parsed, null,
2)`: the handler answers 200 with the pretty-printed recovered value as the
`response` field — no grouping by status and no visual markers. -/
theorem rendering_is_pretty_printed_json (form : List (String × ImageFile))
    (env : ImageEnv) (f : ImageFile)
    (hf : lookupFile "image" form = some f) :
    (imageHandler form env).1 =
      { status := 200,
        response := jsonPretty (recoverAnalysis env.analysisText) } := by
  unfold imageHandler
  rw [hf]

/-- Witness for `rendering_is_pretty_printed_json` at a concrete upload. -/
theorem rendering_is_pretty_printed_json_witness :
    (imageHandler [("image", ⟨"image/jpeg", "QQ=="⟩)]
        ⟨none, some "Aqua", some "\x7b\x7d"⟩).1 =
      { status := 200, response := "\x7b\x7d" } :=
  rendering_is_pretty_printed_json [("image", ⟨"image/jpeg", "QQ=="⟩)]
    ⟨none, some "Aqua", some "\x7b\x7d"⟩ ⟨"image/jpeg", "QQ=="⟩ rfl

/-- C9 counterexample: for a concrete successfully-recovered classification
result the `response` field is the pretty-printed JSON of the parsed value,
which differs from the grouped, marker-decorated report the rendering stage
is claimed to produce. -/
theorem response_not_grouped_report :
    specRender ⟨[⟨"Water", "SAFE", "base"⟩], 9, "fine"⟩ =
      "🟢 SAFE:\n- Water (base)\nScore: 9/10\nfine" ∧
    (imageHandler [("image", ⟨"image/png", "QUJD"⟩)]
        ⟨none, some "Aqua",
          some "\x7b\"ingredients\":[\x7b\"name\":\"Water\",\"classification\":\"SAFE\",\"reason\":\"base\"\x7d],\"score\":9,\"summary\":\"fine\"\x7d"⟩).1.response =
      jsonPretty (Json.obj
        [("ingredients", Json.arr [Json.obj
            [("name", Json.str "Water"),
             ("classification", Json.str "SAFE"),
             ("reason", Json.str "base")]]),
         ("score", Json.num 9 0),
         ("summary", Json.str "fine")]) ∧
    (imageHandler [("image", ⟨"image/png", "QUJD"⟩)]
        ⟨none, some "Aqua",
          some "\x7b\"ingredients\":[\x7b\"name\":\"Water\",\"classification\":\"SAFE\",\"reason\":\"base\"\x7d],\"score\":9,\"summary\":\"fine\"\x7d"⟩).1.response ≠
      specRender ⟨[⟨"Water", "SAFE", "base"⟩], 9, "fine"⟩ :=
  ⟨rfl, rfl, by decide⟩

/-- C1: the handler does not short-circuit on the unreadable sentinel.
With an empty OCR output the extracted text is the sentinel `UNREADABLE`,
yet the classification call is still issued — with the sentinel
interpolated into its prompt — and the handler returns the classifier's
JSON with status 200 instead of an early "could not read label" result. -/
theorem unreadable_sentinel_still_classified :
    extractedText (some "") = "UNREADABLE" ∧
    (imageHandler [("image", ⟨"image/png", "QUJD"⟩)]
        ⟨none, some "",
          some "\x7b\"ingredients\":[],\"score\":0,\"summary\":\"no input\"\x7d"⟩).2 =
      [ExtCall.ocr (ocrPrompt "data:image/png;base64,QUJD"),
       ExtCall.classify (analysisPrompt "UNREADABLE")] ∧
    (imageHandler [("image", ⟨"image/png", "QUJD"⟩)]
        ⟨none, some "",
          some "\x7b\"ingredients\":[],\"score\":0,\"summary\":\"no input\"\x7d"⟩).1.status =
      200 :=
  ⟨rfl, rfl, rfl⟩

end Spec2Proof
